import Mathlib

/-!
Verification of the USDA composition engine of `usd_viewer`
(`src/usd-viewer/src/App.tsx`: the text parser `parseUsda`, the
reference/payload resolver `resolveReferencesForPrim` / `resolveAllReferences` /
`parseAndResolve`, the per-attribute interpolation `interpolateValue`, and the
path helper `resolveRelativePath` from `src/unnamed/part_001`).

Modelling conventions, shared by all definitions below:
* JavaScript numbers are modelled as exact rationals `ℚ`.  Floating-point
  rounding is out of scope of every claim treated here; `parseFloat` of a
  malformed numeral (JS `NaN`) is modelled as `0` by `jsParseFloatD` — no
  claim exercises that case, and all numerals produced by the source's
  regular expressions are well formed in the inputs considered.
* A JS `Map` is modelled as an association list (`List (key × value)`) in
  insertion order, `Map.get` as the first association found, `Map.set` as
  update-in-place-or-append (`mapSet`).  A JS `Set` of strings is a
  `List String` with membership; `new Set([...old, p])` is `old ++ [p]`.
* The regular expressions of the source are hand-compiled to deterministic
  matchers.  Every character class used by the source (`\s`, `\w`, `[\d.]`,
  `[\d.-]`, `[^@]`, `[^"]`, `[^>]`, `[^)]`) is disjoint from the literal
  character that follows it in its pattern, so greedy maximal-munch matching
  with no backtracking is exactly the JS semantics; an unanchored `.match`
  is modelled by `searchMatch`, which tries every start position from the
  left, as the JS engine does.
* The shared mutable error array that the source threads through the
  resolver is modelled by each function returning the list of errors it
  appends, callers concatenating the contributions in push order.
-/

/-- The character class of the JS `\s` escape restricted to ASCII (space,
tab, newline, carriage return, vertical tab, form feed); inputs here are
split on newlines first, and no claim involves non-ASCII whitespace. -/
def isJsWhitespace (c : Char) : Bool :=
  c == ' ' || c == '\t' || c == '\n' || c == '\r' || c == '\x0b' || c == '\x0c'

/-- The JS `\w` class: ASCII letters, digits and underscore. -/
def isWordChar (c : Char) : Bool :=
  c.isAlphanum || c == '_'

/-- The character class `[\d.]` of the source's attribute-value patterns. -/
def isNumDot (c : Char) : Bool :=
  c.isDigit || c == '.'

/-- The character class `[\d.-]` of the source's time-sample patterns. -/
def isNumDotDash (c : Char) : Bool :=
  c.isDigit || c == '.' || c == '-'

/-- JS `String.prototype.trimStart` (leading whitespace removed). -/
def jsTrimStart (s : String) : String :=
  ⟨s.data.dropWhile isJsWhitespace⟩

/-- JS `String.prototype.trim` (whitespace removed at both ends). -/
def jsTrim (s : String) : String :=
  ⟨((s.data.dropWhile isJsWhitespace).reverse.dropWhile isJsWhitespace).reverse⟩

/-- Greedy `cls+`: the maximal non-empty run of class characters at the head,
with the rest; `none` when the first character is not in the class.  This is
exactly JS greedy matching for a class followed by a character outside the
class (all uses below are of that shape). -/
def takeClass1 (cls : Char → Bool) (cs : List Char) : Option (List Char × List Char) :=
  let t := cs.takeWhile cls
  if t.isEmpty then none else some (t, cs.dropWhile cls)

/-- Greedy `\s*`. -/
def skipWs (cs : List Char) : List Char :=
  cs.dropWhile isJsWhitespace

/-- Greedy `\s+`: at least one whitespace character. -/
def expectWs1 (cs : List Char) : Option (List Char) :=
  (takeClass1 isJsWhitespace cs).map Prod.snd

/-- A single literal character of a pattern. -/
def expectChar (c : Char) (cs : List Char) : Option (List Char) :=
  match cs with
  | [] => none
  | d :: rest => if d == c then some rest else none

/-- A literal substring of a pattern. -/
def expectLit (lit : String) (cs : List Char) : Option (List Char) :=
  if lit.data.isPrefixOf cs then some (cs.drop lit.data.length) else none

/-- An optional literal character (`c?`). -/
def optionalChar (c : Char) (cs : List Char) : List Char :=
  match cs with
  | [] => []
  | d :: rest => if d == c then rest else d :: rest

/-- An unanchored JS `.match`: try the matcher at every start position from
the left (including the empty suffix), first success wins. -/
def searchMatch {β : Type} (m : List Char → Option β) : List Char → Option β
  | [] => m []
  | c :: cs =>
    match m (c :: cs) with
    | some r => some r
    | none => searchMatch m cs

/-- Decimal digits to a natural number, as JS number parsing reads them. -/
def digitsToNat (ds : List Char) : Nat :=
  ds.foldl (fun a c => 10 * a + (c.toNat - 48)) 0

/-- JS `parseFloat`, `none` standing for `NaN`: skip leading whitespace, an
optional sign, then the longest prefix `digits [. digits]` with at least one
digit.  Exponent forms cannot arise from the source's character classes and
are not modelled. -/
def jsParseFloat? (s : String) : Option ℚ :=
  let cs := s.data.dropWhile isJsWhitespace
  let (neg, cs1) : Bool × List Char :=
    match cs with
    | '-' :: rest => (true, rest)
    | '+' :: rest => (false, rest)
    | _ => (false, cs)
  let intPart := cs1.takeWhile Char.isDigit
  let cs2 := cs1.dropWhile Char.isDigit
  let fracPart :=
    match cs2 with
    | '.' :: rest => rest.takeWhile Char.isDigit
    | _ => []
  if intPart.isEmpty && fracPart.isEmpty then none
  else
    let k := fracPart.length
    let magnitude : ℚ :=
      mkRat (digitsToNat intPart * 10 ^ k + digitsToNat fracPart : Nat) (10 ^ k)
    some (if neg then Rat.neg magnitude else magnitude)

/-- Total form of `jsParseFloat?`; `NaN` is modelled as `0` (see the header
comment: no claim exercises a malformed numeral). -/
def jsParseFloatD (s : String) : ℚ :=
  (jsParseFloat? s).getD 0

/-- The IEEE-754 double closest to pi — the value of JS `Math.PI` — as an
exact rational. -/
def mathPi : ℚ :=
  884279719003555 / 281474976710656

/-- `THREE.MathUtils.degToRad`: degrees times `Math.PI / 180`. -/
def degToRad (d : ℚ) : ℚ :=
  d * (mathPi / 180)

/-- JS `s.split(sep)` for a one-character separator (also the behavior of
`String.splitOn` for such separators), written structurally so that concrete
evaluation reduces in the kernel. -/
def splitOnCharGo (sep : Char) : List Char → List Char → List String
  | [], acc => [⟨acc.reverse⟩]
  | c :: cs, acc =>
    if c == sep then (⟨acc.reverse⟩ : String) :: splitOnCharGo sep cs []
    else splitOnCharGo sep cs (c :: acc)

/-- JS `s.split(sep)` for a one-character separator. -/
def jsSplitOnChar (sep : Char) (s : String) : List String :=
  splitOnCharGo sep s.data []

/-- JS `s.startsWith(lit)`. -/
def startsWithLit (lit : String) (s : String) : Bool :=
  lit.data.isPrefixOf s.data

/-! ### Hand-compiled regular expressions of `usdaParser.ts` -/

/-- The search pattern `@([^@]+)@(?:<([^>]+)>)?` of `parseAssetReference`,
tried at one start position: asset path between the first pair of `@`,
optional prim path between `<` and `>`. -/
def matchAssetAt (cs : List Char) : Option (String × Option String) := do
  let r ← expectChar '@' cs
  let (p, r) ← takeClass1 (fun c => c != '@') r
  let r ← expectChar '@' r
  match (do
      let r2 ← expectChar '<' r
      let (pp, r3) ← takeClass1 (fun c => c != '>') r2
      let _ ← expectChar '>' r3
      pure pp) with
  | some pp => pure (⟨p⟩, some ⟨pp⟩)
  | none => pure (⟨p⟩, none)

/-- The anchored pattern `^def\s+(?:(\w+)\s+)?"([^"]+)"(?:\s*\(([^)]*)\))?` of
`parseDefStatement`: optional type word, quoted name, optional parenthesized
metadata.  The optional groups need no backtracking: when the type group
matches, the following character is past mandatory whitespace, where the
group-skipping alternative would demand a quote at a word character. -/
def matchDefAt (cs : List Char) : Option (Option String × String × Option String) := do
  let r ← expectLit "def" cs
  let r ← expectWs1 r
  let (ty, r) : Option String × List Char :=
    match (do
        let (w, r2) ← takeClass1 isWordChar r
        let r3 ← expectWs1 r2
        pure (w, r3)) with
    | some (w, r2) => (some ⟨w⟩, r2)
    | none => (none, r)
  let r ← expectChar '"' r
  let (nm, r) ← takeClass1 (fun c => c != '"') r
  let r ← expectChar '"' r
  let meta : Option String :=
    match (do
        let r2 := skipWs r
        let r3 ← expectChar '(' r2
        let m := r3.takeWhile (fun c => c != ')')
        let r4 := r3.dropWhile (fun c => c != ')')
        let _ ← expectChar ')' r4
        pure m) with
    | some m => some ⟨m⟩
    | none => none
  pure (ty, ⟨nm⟩, meta)

/-- The anchored pattern `^def\s+(?:(\w+)\s+)?"([^"]+)"\s*\(` used by
`parseUsda` to detect a def line opening a multiline metadata block. -/
def matchDefStartAt (cs : List Char) : Bool :=
  (do
    let r ← expectLit "def" cs
    let r ← expectWs1 r
    let r :=
      match (do
          let (_, r2) ← takeClass1 isWordChar r
          expectWs1 r2) with
      | some r2 => r2
      | none => r
    let r ← expectChar '"' r
    let (_, r) ← takeClass1 (fun c => c != '"') r
    let r ← expectChar '"' r
    expectChar '(' (skipWs r)).isSome

/-- The search pattern `active\s*=\s*(true|false)` over a metadata clause. -/
def matchActiveAt (cs : List Char) : Option Bool := do
  let r ← expectLit "active" cs
  let r := skipWs r
  let r ← expectChar '=' r
  let r := skipWs r
  match expectLit "true" r with
  | some _ => pure true
  | none => (expectLit "false" r).map (fun _ => false)

/-- The search patterns `references\s*=\s*(@[^@]+@(?:<[^>]+>)?)` and
`payload\s*=\s*(@[^@]+@(?:<[^>]+>)?)` over a metadata clause, parameterized
by the keyword; the returned string is the text of capture group 1 (the whole
`@…@`/`@…@<…>` token), which `parseDefStatement` hands to
`parseAssetReference`. -/
def matchRefTokenAt (keyword : String) (cs : List Char) : Option String := do
  let r ← expectLit keyword cs
  let r := skipWs r
  let r ← expectChar '=' r
  let r := skipWs r
  let r ← expectChar '@' r
  let (p, r) ← takeClass1 (fun c => c != '@') r
  let r ← expectChar '@' r
  match (do
      let r2 ← expectChar '<' r
      let (pp, r3) ← takeClass1 (fun c => c != '>') r2
      let _ ← expectChar '>' r3
      pure pp) with
  | some pp => pure ("@" ++ (⟨p⟩ : String) ++ "@<" ++ (⟨pp⟩ : String) ++ ">")
  | none => pure ("@" ++ (⟨p⟩ : String) ++ "@")

/-- The search pattern `(?:double|float)\s+<attr>\s*=\s*([\d.]+)` of the
static scalar attributes (`radius`, `size`, `height`). -/
def matchScalarAttrAt (attr : String) (cs : List Char) : Option String := do
  let r ←
    match expectLit "double" cs with
    | some r => some r
    | none => expectLit "float" cs
  let r ← expectWs1 r
  let r ← expectLit attr r
  let r := skipWs r
  let r ← expectChar '=' r
  let r := skipWs r
  let (v, _) ← takeClass1 isNumDot r
  pure (⟨v⟩ : String)

/-- The search pattern `<kw>\s+<attr>\.timeSamples\s*=\s*\{` that opens a
timeSamples block, with the keyword alternatives tried in pattern order
(`["double", "float"]` for scalars, a single `double3`/`float3` keyword for
vectors). -/
def matchTsOpenAt (kws : List String) (attr : String) (cs : List Char) : Option Unit := do
  let r ← kws.findSome? (fun k => expectLit k cs)
  let r ← expectWs1 r
  let r ← expectLit (attr ++ ".timeSamples") r
  let r := skipWs r
  let r ← expectChar '=' r
  let r := skipWs r
  let _ ← expectChar '{' r
  pure ()

/-- The search pattern
`<kw>\s+<attr>\s*=\s*\(\s*([\d.-]+)\s*,\s*([\d.-]+)\s*,\s*([\d.-]+)\s*\)`
of the static vector attributes (`xformOp:translate`, `xformOp:rotateXYZ`,
`xformOp:scale`). -/
def matchVecAttrAt (kw attr : String) (cs : List Char) : Option (String × String × String) := do
  let r ← expectLit kw cs
  let r ← expectWs1 r
  let r ← expectLit attr r
  let r := skipWs r
  let r ← expectChar '=' r
  let r := skipWs r
  let r ← expectChar '(' r
  let r := skipWs r
  let (a, r) ← takeClass1 isNumDotDash r
  let r := skipWs r
  let r ← expectChar ',' r
  let r := skipWs r
  let (b, r) ← takeClass1 isNumDotDash r
  let r := skipWs r
  let r ← expectChar ',' r
  let r := skipWs r
  let (c, r) ← takeClass1 isNumDotDash r
  let r := skipWs r
  let _ ← expectChar ')' r
  pure ((⟨a⟩ : String), (⟨b⟩ : String), (⟨c⟩ : String))

/-- The search pattern
`color3f\[\]\s+primvars:displayColor\s*=\s*\[\s*\(\s*([\d.]+)\s*,\s*([\d.]+)\s*,\s*([\d.]+)\s*\)\s*\]`
of the display-color attribute. -/
def matchColorAt (cs : List Char) : Option (String × String × String) := do
  let r ← expectLit "color3f[]" cs
  let r ← expectWs1 r
  let r ← expectLit "primvars:displayColor" r
  let r := skipWs r
  let r ← expectChar '=' r
  let r := skipWs r
  let r ← expectChar '[' r
  let r := skipWs r
  let r ← expectChar '(' r
  let r := skipWs r
  let (a, r) ← takeClass1 isNumDot r
  let r := skipWs r
  let r ← expectChar ',' r
  let r := skipWs r
  let (b, r) ← takeClass1 isNumDot r
  let r := skipWs r
  let r ← expectChar ',' r
  let r := skipWs r
  let (c, r) ← takeClass1 isNumDot r
  let r := skipWs r
  let r ← expectChar ')' r
  let r := skipWs r
  let _ ← expectChar ']' r
  pure ((⟨a⟩ : String), (⟨b⟩ : String), (⟨c⟩ : String))

/-- The fully anchored sample-line pattern `^([\d.-]+)\s*:\s*([\d.-]+),?$` of
`parseTimeSamplesScalar`, applied to the trimmed line. -/
def matchScalarSampleLine (s : String) : Option (String × String) := do
  let (t, r) ← takeClass1 isNumDotDash s.data
  let r := skipWs r
  let r ← expectChar ':' r
  let r := skipWs r
  let (v, r) ← takeClass1 isNumDotDash r
  let r := optionalChar ',' r
  if r.isEmpty then pure ((⟨t⟩ : String), (⟨v⟩ : String)) else none

/-- The fully anchored sample-line pattern
`^([\d.-]+)\s*:\s*\(\s*([\d.-]+)\s*,\s*([\d.-]+)\s*,\s*([\d.-]+)\s*\),?$`
of `parseTimeSamplesVector3`, applied to the trimmed line. -/
def matchVecSampleLine (s : String) : Option (String × String × String × String) := do
  let (t, r) ← takeClass1 isNumDotDash s.data
  let r := skipWs r
  let r ← expectChar ':' r
  let r := skipWs r
  let r ← expectChar '(' r
  let r := skipWs r
  let (a, r) ← takeClass1 isNumDotDash r
  let r := skipWs r
  let r ← expectChar ',' r
  let r := skipWs r
  let (b, r) ← takeClass1 isNumDotDash r
  let r := skipWs r
  let r ← expectChar ',' r
  let r := skipWs r
  let (c, r) ← takeClass1 isNumDotDash r
  let r := skipWs r
  let r ← expectChar ')' r
  let r := optionalChar ',' r
  if r.isEmpty then pure ((⟨t⟩ : String), (⟨a⟩ : String), (⟨b⟩ : String), (⟨c⟩ : String)) else none

/-! ### Data model (`usdaParser.ts` / `types/virtualFileSystem.ts`) -/

/-- A 3-vector value. -/
abbrev Vec3 := ℚ × ℚ × ℚ

/-- `TimeSamples<T> = Map<number, T>`: association list in insertion order. -/
abbrev TimeSamples (α : Type) := List (ℚ × α)

/-- JS `Map.prototype.set`: replace the value of an existing key in place,
otherwise append a new entry. -/
def mapSet {α : Type} (m : TimeSamples α) (k : ℚ) (v : α) : TimeSamples α :=
  if m.any (fun kv => kv.1 == k) then
    m.map (fun kv => if kv.1 == k then (k, v) else kv)
  else m ++ [(k, v)]

/-- `UsdReference`: an external pointer `(assetPath, optional primPath)`. -/
structure UsdReference where
  assetPath : String
  primPath : Option String
deriving DecidableEq, Repr

/-- The non-recursive fields of `ParsedPrim` (everything except `children`
and `resolvedChildren`).  The `type` string is one of the source's union
`'Sphere' | 'Cube' | 'Cylinder' | 'Cone' | 'Xform' | 'Reference'` at the
type level; the parser does not enforce membership, so a plain `String` is
the faithful model. -/
structure PrimData where
  type : String
  name : String
  active : Option Bool := none
  radius : Option ℚ := none
  radiusTimeSamples : Option (TimeSamples ℚ) := none
  size : Option ℚ := none
  sizeTimeSamples : Option (TimeSamples ℚ) := none
  height : Option ℚ := none
  heightTimeSamples : Option (TimeSamples ℚ) := none
  color : Option Vec3 := none
  colorTimeSamples : Option (TimeSamples Vec3) := none
  position : Option Vec3 := none
  positionTimeSamples : Option (TimeSamples Vec3) := none
  rotation : Option Vec3 := none
  rotationTimeSamples : Option (TimeSamples Vec3) := none
  scale : Option Vec3 := none
  scaleTimeSamples : Option (TimeSamples Vec3) := none
  references : Option (List UsdReference) := none
  payloads : Option (List UsdReference) := none
deriving DecidableEq, Repr

/-- `ParsedPrim`: a scene-graph node; `children` holds the prims nested in
the same file, `resolvedChildren` the prims spliced in by the resolver.
Both are optional exactly as in the source (`undefined` vs `[]` is
observable through the resolver and the active filter). -/
inductive ParsedPrim : Type where
  | mk (data : PrimData) (children : Option (List ParsedPrim))
      (resolvedChildren : Option (List ParsedPrim))

/-- The non-recursive fields of a prim. -/
def ParsedPrim.data : ParsedPrim → PrimData
  | .mk d _ _ => d

/-- The `children` field of a prim. -/
def ParsedPrim.children : ParsedPrim → Option (List ParsedPrim)
  | .mk _ c _ => c

/-- The `resolvedChildren` field of a prim. -/
def ParsedPrim.resolvedChildren : ParsedPrim → Option (List ParsedPrim)
  | .mk _ _ r => r

/-- Replace the non-recursive fields of a prim (a single TS field
assignment such as `currentPrim.radius = …`). -/
def ParsedPrim.withData (p : ParsedPrim) (d : PrimData) : ParsedPrim :=
  .mk d p.children p.resolvedChildren

/-- The `name` field. -/
def ParsedPrim.name (p : ParsedPrim) : String := p.data.name

/-- The `type` field. -/
def ParsedPrim.type (p : ParsedPrim) : String := p.data.type

/-- The `active` field. -/
def ParsedPrim.active (p : ParsedPrim) : Option Bool := p.data.active

/-- The `references` field. -/
def ParsedPrim.references (p : ParsedPrim) : Option (List UsdReference) := p.data.references

/-- The `payloads` field. -/
def ParsedPrim.payloads (p : ParsedPrim) : Option (List UsdReference) := p.data.payloads

/-! ### The text parser (`parseUsda` and its helpers) -/

/-- The result record of `parseDefStatement`. -/
structure DefInfo where
  type : String
  name : String
  active : Option Bool
  references : Option (List UsdReference)
  payloads : Option (List UsdReference)
deriving DecidableEq, Repr

/-- `parseAssetReference(metadata)`: first `@…@`/`@…@<…>` token in the
string; an empty prim-path capture cannot arise (`[^>]+`), and the source's
`match[2] || undefined` is the `Option`. -/
def parseAssetReference (metadata : String) : Option UsdReference :=
  (searchMatch matchAssetAt metadata.data).map (fun r => ⟨r.1, r.2⟩)

/-- `parseDefStatement(line)`: the anchored def pattern, then the `active`,
`references` and `payload` tokens of the metadata clause.  An empty metadata
capture is falsy in JS (`if (metadata)`), and is skipped exactly as
`undefined` is. -/
def parseDefStatement (line : String) : Option DefInfo :=
  match matchDefAt line.data with
  | none => none
  | some (primType, primName, metadata) =>
    let base : DefInfo := ⟨primType.getD "Xform", primName, none, none, none⟩
    match metadata with
    | none => some base
    | some m =>
      if m.isEmpty then some base
      else
        some { base with
          active := searchMatch matchActiveAt m.data
          references :=
            ((searchMatch (matchRefTokenAt "references") m.data).bind
              parseAssetReference).map (fun r => [r])
          payloads :=
            ((searchMatch (matchRefTokenAt "payload") m.data).bind
              parseAssetReference).map (fun r => [r]) }

/-- Net parenthesis-depth change contributed by one line (the source walks
the characters, but only inspects the depth after a whole line). -/
def parenDelta (l : String) : Int :=
  l.data.foldl (fun d c => if c == '(' then d + 1 else if c == ')' then d - 1 else d) 0

/-- The loop body of `parseMultilineMetadata`, over the lines from the start
index: accumulate `line + "\n"`, stop on the line where the depth returns to
zero.  Returns the metadata and the offset of the stopping line (the number
of lines consumed when no line stops it). -/
def parseMultilineMetadataGo : List String → Int → String × Nat
  | [], _ => ("", 0)
  | l :: ls, depth =>
    let d := depth + parenDelta l
    if d == 0 then (l ++ "\n", 0)
    else
      let (m, k) := parseMultilineMetadataGo ls d
      (l ++ "\n" ++ m, k + 1)

/-- `parseMultilineMetadata(lines, startIndex)`: metadata text and the end
index (`lines.length` when the depth never returns to zero). -/
def parseMultilineMetadata (lines : List String) (startIndex : Nat) : String × Nat :=
  let (m, k) := parseMultilineMetadataGo (lines.drop startIndex) 0
  (m, startIndex + k)

/-- `metadata.replace(/\n/g, ' ')`. -/
def jsReplaceNewlines (s : String) : String :=
  ⟨s.data.map (fun c => if c == '\n' then ' ' else c)⟩

/-- The while-loop of `parseTimeSamplesScalar` over the lines from the start
index: gather `time: value,`-shaped lines into the sample map, stop at a
trimmed line equal to a closing brace.  Returns the samples and the offset
of the stopping line. -/
def parseTimeSamplesScalarGo : List String → TimeSamples ℚ → TimeSamples ℚ × Nat
  | [], samples => (samples, 0)
  | l :: ls, samples =>
    let t := jsTrim l
    if t == "\x7d" then (samples, 0)
    else
      let samples1 :=
        match matchScalarSampleLine t with
        | some (ts, vs) => mapSet samples (jsParseFloatD ts) (jsParseFloatD vs)
        | none => samples
      let (s, k) := parseTimeSamplesScalarGo ls samples1
      (s, k + 1)

/-- `parseTimeSamplesScalar(content, startIndex)`: the source re-splits the
whole content; the caller passes the same line list here. -/
def parseTimeSamplesScalar (lines : List String) (startIndex : Nat) : TimeSamples ℚ × Nat :=
  let (s, k) := parseTimeSamplesScalarGo (lines.drop startIndex) []
  (s, startIndex + k)

/-- The while-loop of `parseTimeSamplesVector3`, as for the scalar form but
with `(x, y, z)` values and an optional degree-to-radian conversion. -/
def parseTimeSamplesVector3Go (convertToRadians : Bool) :
    List String → TimeSamples Vec3 → TimeSamples Vec3 × Nat
  | [], samples => (samples, 0)
  | l :: ls, samples =>
    let t := jsTrim l
    if t == "\x7d" then (samples, 0)
    else
      let samples1 :=
        match matchVecSampleLine t with
        | some (ts, a, b, c) =>
          let v : Vec3 :=
            if convertToRadians then
              (degToRad (jsParseFloatD a), degToRad (jsParseFloatD b), degToRad (jsParseFloatD c))
            else (jsParseFloatD a, jsParseFloatD b, jsParseFloatD c)
          mapSet samples (jsParseFloatD ts) v
        | none => samples
      let (s, k) := parseTimeSamplesVector3Go convertToRadians ls samples1
      (s, k + 1)

/-- `parseTimeSamplesVector3(content, startIndex, convertToRadians)`. -/
def parseTimeSamplesVector3 (lines : List String) (startIndex : Nat)
    (convertToRadians : Bool := false) : TimeSamples Vec3 × Nat :=
  let (s, k) := parseTimeSamplesVector3Go convertToRadians (lines.drop startIndex) []
  (s, startIndex + k)

/-- The parse state of `parseUsda`: the finished root prims, the stack of
(prim under construction, indentation) pairs with the innermost prim first,
and the first line index not yet consumed by a multiline construct.  The
source mutates a prim that is simultaneously reachable from its parent's
`children` array; here a prim is attached to its parent (or to the roots)
when it is popped, which yields the same final tree because the source never
reads a partially built child. -/
structure ParserState where
  roots : List ParsedPrim
  stack : List (ParsedPrim × Nat)
  skipTo : Nat

/-- `stack[stack.length - 1].prim.children?.push(newPrim)`: append a child;
no-op when `children` is `undefined` (optional chaining — unreachable for
parser-created prims, which always carry `children: []`). -/
def pushChild (q p : ParsedPrim) : ParsedPrim :=
  match q.children with
  | none => q
  | some l => .mk q.data (some (l ++ [p])) q.resolvedChildren

/-- The pop loop `while (stack.length > 0 && stack[top].indent >= indent)`:
every popped prim folds into the next stack entry, and the last popped prim
attaches to the surviving top (or to the roots when the stack empties). -/
def popGE (indent : Nat) (st : ParserState) : ParserState :=
  let toPop := st.stack.takeWhile (fun e => indent ≤ e.2)
  let keep := st.stack.dropWhile (fun e => indent ≤ e.2)
  match toPop with
  | [] => st
  | (p1, _) :: more =>
    let folded := more.foldl (fun r e => pushChild e.1 r) p1
    match keep with
    | [] => { st with roots := st.roots ++ [folded], stack := [] }
    | (q, j) :: rest => { st with stack := (pushChild q folded, j) :: rest }

/-- Creation of a prim from a parsed def statement (`children` starts as
`[]`, `resolvedChildren` unset). -/
def mkPrimOfDef (d : DefInfo) : ParsedPrim :=
  .mk { type := d.type, name := d.name, active := d.active,
        references := d.references, payloads := d.payloads } (some []) none

/-- A new declaration: pop stack entries at the same or deeper indentation,
then push the new prim at this indentation. -/
def attachPrim (newPrim : ParsedPrim) (indent : Nat) (st : ParserState) : ParserState :=
  let st1 := popGE indent st
  { st1 with stack := (newPrim, indent) :: st1.stack }

/-- The attribute-matching cascade of `parseUsda` applied to one line for
the prim on top of the stack, in source order: each `timeSamples` opener
consumes its block and `continue`s (the returned index is the block's end
index); the static patterns fall through to the next check.  Returns the
updated prim and the end index when a block was consumed. -/
def applyAttrLine (lines : List String) (i : Nat) (trimmed : String) (p : ParsedPrim) :
    ParsedPrim × Option Nat :=
  let cs := trimmed.data
  if (searchMatch (matchTsOpenAt ["double", "float"] "radius") cs).isSome then
    let (samples, endIndex) := parseTimeSamplesScalar lines (i + 1)
    (p.withData { p.data with radiusTimeSamples := some samples }, some endIndex)
  else
  let p := match searchMatch (matchScalarAttrAt "radius") cs with
    | some v => p.withData { p.data with radius := some (jsParseFloatD v) }
    | none => p
  if (searchMatch (matchTsOpenAt ["double", "float"] "size") cs).isSome then
    let (samples, endIndex) := parseTimeSamplesScalar lines (i + 1)
    (p.withData { p.data with sizeTimeSamples := some samples }, some endIndex)
  else
  let p := match searchMatch (matchScalarAttrAt "size") cs with
    | some v => p.withData { p.data with size := some (jsParseFloatD v) }
    | none => p
  if (searchMatch (matchTsOpenAt ["double", "float"] "height") cs).isSome then
    let (samples, endIndex) := parseTimeSamplesScalar lines (i + 1)
    (p.withData { p.data with heightTimeSamples := some samples }, some endIndex)
  else
  let p := match searchMatch (matchScalarAttrAt "height") cs with
    | some v => p.withData { p.data with height := some (jsParseFloatD v) }
    | none => p
  let p := match searchMatch matchColorAt cs with
    | some (a, b, c) =>
      p.withData { p.data with color := some (jsParseFloatD a, jsParseFloatD b, jsParseFloatD c) }
    | none => p
  if (searchMatch (matchTsOpenAt ["double3"] "xformOp:translate") cs).isSome then
    let (samples, endIndex) := parseTimeSamplesVector3 lines (i + 1)
    (p.withData { p.data with positionTimeSamples := some samples }, some endIndex)
  else
  let p := match searchMatch (matchVecAttrAt "double3" "xformOp:translate") cs with
    | some (a, b, c) =>
      p.withData { p.data with position := some (jsParseFloatD a, jsParseFloatD b, jsParseFloatD c) }
    | none => p
  if (searchMatch (matchTsOpenAt ["float3"] "xformOp:rotateXYZ") cs).isSome then
    let (samples, endIndex) := parseTimeSamplesVector3 lines (i + 1) true
    (p.withData { p.data with rotationTimeSamples := some samples }, some endIndex)
  else
  let p := match searchMatch (matchVecAttrAt "float3" "xformOp:rotateXYZ") cs with
    | some (a, b, c) =>
      let v : Vec3 := (degToRad (jsParseFloatD a), degToRad (jsParseFloatD b), degToRad (jsParseFloatD c))
      p.withData { p.data with rotation := some v }
    | none => p
  if (searchMatch (matchTsOpenAt ["float3"] "xformOp:scale") cs).isSome then
    let (samples, endIndex) := parseTimeSamplesVector3 lines (i + 1)
    (p.withData { p.data with scaleTimeSamples := some samples }, some endIndex)
  else
  let p := match searchMatch (matchVecAttrAt "float3" "xformOp:scale") cs with
    | some (a, b, c) =>
      p.withData { p.data with scale := some (jsParseFloatD a, jsParseFloatD b, jsParseFloatD c) }
    | none => p
  (p, none)

/-- One iteration of the line loop of `parseUsda`.  The source's
`i = endIndex; continue` jumps are modelled by `skipTo`: an index below it
was consumed by a multiline construct and is skipped. -/
def parseStep (lines : List String) (st : ParserState) (ie : Nat × String) : ParserState :=
  let i := ie.1
  let line := ie.2
  if i < st.skipTo then st
  else
    let trimmed := jsTrimStart line
    let indent := line.length - trimmed.length
    if matchDefStartAt trimmed.data && !(trimmed.data.contains ')') then
      let (metadata, endIndex) := parseMultilineMetadata lines i
      match parseDefStatement (jsReplaceNewlines metadata) with
      | some d => { attachPrim (mkPrimOfDef d) indent st with skipTo := endIndex + 1 }
      | none => { st with skipTo := endIndex + 1 }
    else
      match parseDefStatement trimmed with
      | some d => attachPrim (mkPrimOfDef d) indent st
      | none =>
        match st.stack with
        | [] => st
        | (p, j) :: rest =>
          let (p1, jump) := applyAttrLine lines i trimmed p
          match jump with
          | some endIndex => { st with stack := (p1, j) :: rest, skipTo := endIndex + 1 }
          | none => { st with stack := (p1, j) :: rest }

/-- `parseUsda(content)`: split on newlines, run the line loop, and close
every prim still on the stack (the source attached them on creation through
shared mutable references; see `ParserState`). -/
def parseUsda (content : String) : List ParsedPrim :=
  let lines := jsSplitOnChar '\n' content
  let final := lines.enum.foldl (fun st ie => parseStep lines st ie)
    { roots := [], stack := [], skipTo := 0 }
  (popGE 0 final).roots

/-! ### Path resolution (`useVirtualFileSystem.ts`, `resolveRelativePath`) -/

/-- The directory part `basePath.substring(0, basePath.lastIndexOf('/') + 1)`
with the JS `|| '/'` fallback for an empty result: everything up to and
including the last slash, `"/"` when there is no slash. -/
def jsBaseDir (basePath : String) : String :=
  let pre : List Char := (basePath.data.reverse.dropWhile (fun c => c != '/')).reverse
  if pre.isEmpty then "/" else ⟨pre⟩

/-- `combined.split('/').filter(Boolean)`: split on slashes, drop empty
segments (the only falsy string). -/
def splitSegments (combined : String) : List String :=
  (jsSplitOnChar '/' combined).filter (fun s => !(s == ""))

/-- The segment-collapse loop of `resolveRelativePath`: `..` pops the last
collected segment (a no-op on the empty list, which clamps at the root),
`.` is dropped, anything else is pushed. -/
def normalizeSegments (segments : List String) : List String :=
  segments.foldl
    (fun acc seg =>
      if seg == ".." then acc.dropLast
      else if seg == "." then acc
      else acc ++ [seg]) []

/-- `resolveRelativePath(basePath, relativePath)`: an absolute path is used
as-is, otherwise the path is joined to the base directory and normalized. -/
def resolveRelativePath (basePath relativePath : String) : String :=
  if startsWithLit "/" relativePath then relativePath
  else
    let baseDir := jsBaseDir basePath
    let combined := baseDir ++ relativePath
    let resolved := normalizeSegments (splitSegments combined)
    "/" ++ String.intercalate "/" resolved

/-! ### The reference resolver (`usdaResolver.ts` part of `App.tsx`) -/

/-- A stored file as the resolver reads it.  The source's `VirtualFile` also
carries `id`, `path`, `name`, `isDirty`, `lastModified`; the resolver reads
only `content` and `active`, so only those are modelled. -/
structure VirtualFile where
  content : String
  active : Bool
deriving DecidableEq, Repr

/-- The file map `Map<string, VirtualFile>` keyed by absolute path. -/
abbrev FileMap := List (String × VirtualFile)

/-- `files.get(absolutePath)`: first association with the key. -/
def lookupFile (files : FileMap) (path : String) : Option VirtualFile :=
  (files.find? (fun kv => kv.1 == path)).map Prod.snd

/-- The error taxonomy of `ParseError.type`. -/
inductive ParseErrorType where
  | missing_file
  | circular_reference
  | invalid_prim_path
  | parse_error
deriving DecidableEq, Repr

/-- A structured composition error.  The optional `line` field of the source
type is never set by the parser or resolver and is omitted. -/
structure ParseError where
  type : ParseErrorType
  message : String
  filePath : String
deriving DecidableEq, Repr

/-- The resolver context minus the shared error array (errors are returned
by each function; see the header comment). -/
structure ParseContext where
  currentFilePath : String
  files : FileMap
  visitedPaths : List String

/-- The walk of `findPrimByPath` over the path segments: at each level the
first prim whose name equals the segment, descending through `children`. -/
def findPrimLoop : List ParsedPrim → List String → Option ParsedPrim
  | _, [] => none
  | cur, seg :: rest =>
    match cur.find? (fun p => p.name == seg) with
    | none => none
    | some found =>
      if rest.isEmpty then some found else findPrimLoop (found.children.getD []) rest

/-- `findPrimByPath(prims, path)`. -/
def findPrimByPath (prims : List ParsedPrim) (path : String) : Option ParsedPrim :=
  findPrimLoop prims ((jsSplitOnChar '/' path).filter (fun s => !(s == "")))

mutual

/-- `clonePrim`: a deep structural copy (the identity on this value-type
model; the source needs it to avoid aliasing between usage sites).  The
source's `prim.children?.map(clonePrim)` is split into the mutual helpers
`cloneOpt`/`cloneList` for the termination checker; `cloneList_eq_map`
below restores the source's shape. -/
def clonePrim : ParsedPrim → ParsedPrim
  | .mk d c r => .mk d (cloneOpt c) (cloneOpt r)

/-- `children?.map clonePrim` on the optional list. -/
def cloneOpt : Option (List ParsedPrim) → Option (List ParsedPrim)
  | none => none
  | some l => some (cloneList l)

/-- `List.map clonePrim`. -/
def cloneList : List ParsedPrim → List ParsedPrim
  | [] => []
  | p :: ps => clonePrim p :: cloneList ps

end

/-- The keep condition of `filterActivePrims`: `prim.active !== false`. -/
def keepActive (p : ParsedPrim) : Bool :=
  !(p.active == some false)

mutual

/-- The per-prim body of `filterActivePrims`: keep the prim's data, filter
its `children` and `resolvedChildren` recursively (`undefined` stays
`undefined`). -/
def filterPrim : ParsedPrim → ParsedPrim
  | .mk d c r =>
    .mk d
      (match c with
        | none => none
        | some l => some (filterActivePrims l))
      (match r with
        | none => none
        | some l => some (filterActivePrims l))

/-- `filterActivePrims(prims)`: drop prims with `active === false`, map the
rest through `filterPrim`.  The source writes this as `.filter(...).map(...)`;
the fused recursion here equals that form (`filterActivePrims_eq` below). -/
def filterActivePrims : List ParsedPrim → List ParsedPrim
  | [] => []
  | p :: ps =>
    if keepActive p then filterPrim p :: filterActivePrims ps
    else filterActivePrims ps

end

/-- Number of file-map keys not yet on the visited path: the termination
measure of the resolver (every cross-file recursion step visits a fresh key
that exists in the map, so this strictly decreases). -/
def unvisitedCount (files : FileMap) (visited : List String) : Nat :=
  ((files.map Prod.fst).filter (fun p => decide (¬ p ∈ visited))).length

/-- A pointwise-weaker filter keeps at most as many elements. -/
theorem length_filter_mono {α : Type} {p q : α → Bool}
    (hpq : ∀ x, q x = true → p x = true) (l : List α) :
    (l.filter q).length ≤ (l.filter p).length :=
  (List.monotone_filter_right l (fun a ha => hpq a ha)).length_le

/-- A pointwise-weaker filter keeps strictly fewer elements when some list
element passes the weak filter but not the strong one. -/
theorem length_filter_lt_of_witness {α : Type} {p q : α → Bool}
    (hpq : ∀ x, q x = true → p x = true) {l : List α} {a : α}
    (ha : a ∈ l) (hpa : p a = true) (hqa : q a = false) :
    (l.filter q).length < (l.filter p).length := by
  induction l with
  | nil => cases ha
  | cons x xs ih =>
    rcases List.mem_cons.mp ha with rfl | hm
    · rw [List.filter_cons_of_pos hpa, List.filter_cons_of_neg (by simp [hqa]),
        List.length_cons]
      exact Nat.lt_succ_of_le (length_filter_mono hpq xs)
    · cases hq : q x with
      | true =>
        rw [List.filter_cons_of_pos (hpq x hq), List.filter_cons_of_pos hq,
          List.length_cons, List.length_cons]
        exact Nat.succ_lt_succ (ih hm)
      | false =>
        rw [List.filter_cons_of_neg (by simp [hq])]
        cases hp : p x with
        | true =>
          rw [List.filter_cons_of_pos hp, List.length_cons]
          exact Nat.lt_succ_of_lt (ih hm)
        | false =>
          rw [List.filter_cons_of_neg (by simp [hp])]
          exact ih hm

/-- Visiting a fresh key that exists in the file map strictly shrinks the
set of unvisited keys. -/
theorem unvisitedCount_lt {files : FileMap} {visited : List String}
    {absPath : String} {file : VirtualFile} (h1 : ¬ absPath ∈ visited)
    (h2 : lookupFile files absPath = some file) :
    unvisitedCount files (visited ++ [absPath]) < unvisitedCount files visited := by
  have hmem : absPath ∈ files.map Prod.fst := by
    unfold lookupFile at h2
    cases hfind : files.find? (fun kv => kv.1 == absPath) with
    | none => rw [hfind] at h2; simp at h2
    | some kv =>
      have hk : kv.1 = absPath := by simpa using List.find?_some hfind
      exact hk ▸ List.mem_map_of_mem Prod.fst (List.mem_of_find?_eq_some hfind)
  unfold unvisitedCount
  apply length_filter_lt_of_witness (a := absPath) ?mono hmem ?hp ?hq
  case mono =>
    intro x hx
    simp only [decide_eq_true_eq] at hx ⊢
    exact fun hxv => hx (List.mem_append.mpr (Or.inl hxv))
  case hp => simpa using h1
  case hq => simp

/-- `sizeOf` of the list held by the `references` field is below the prim's. -/
theorem sizeOf_references_lt {d : PrimData} {c r : Option (List ParsedPrim)}
    {refs : List UsdReference} (h : d.references = some refs) :
    sizeOf refs < sizeOf (ParsedPrim.mk d c r) := by
  cases d
  simp only [PrimData.references] at h
  subst h
  simp only [ParsedPrim.mk.sizeOf_spec, PrimData.mk.sizeOf_spec, Option.some.sizeOf_spec]
  omega

/-- `sizeOf` of the list held by the `payloads` field is below the prim's. -/
theorem sizeOf_payloads_lt {d : PrimData} {c r : Option (List ParsedPrim)}
    {pays : List UsdReference} (h : d.payloads = some pays) :
    sizeOf pays < sizeOf (ParsedPrim.mk d c r) := by
  cases d
  simp only [PrimData.payloads] at h
  subst h
  simp only [ParsedPrim.mk.sizeOf_spec, PrimData.mk.sizeOf_spec, Option.some.sizeOf_spec]
  omega

mutual

/-- The per-entry body of the two for-loops of `resolveReferencesForPrim`:
the reference loop when `isPayload = false`, the payload loop when `true`
(the source repeats the same statements with different message wording and
a different entry list).  Returns the prims this entry pushes onto the
prim's `resolvedChildren` and the errors it pushes, in push order.  The
source's local try/catch cannot fire in this model: `parseUsda` and the
recursion are total, so the catch branch (a `parse_error` naming the current
file) is dead code here; exceptions are modelled at the top level only
(`parseAndResolveWith`). -/
def resolveEntry (ctx : ParseContext) (isPayload : Bool) (entry : UsdReference) :
    List ParsedPrim × List ParseError :=
  let absolutePath := resolveRelativePath ctx.currentFilePath entry.assetPath
  if h1 : absolutePath ∈ ctx.visitedPaths then
    let kind := if isPayload then "Circular payload detected: "
      else "Circular reference detected: "
    let msg := kind ++ ctx.currentFilePath ++ " -> " ++ absolutePath
    ([], [ParseError.mk ParseErrorType.circular_reference msg ctx.currentFilePath])
  else
    match h2 : lookupFile ctx.files absolutePath with
    | none =>
      let kind := if isPayload then "Payload file not found: "
        else "Referenced file not found: "
      let msg := kind ++ entry.assetPath ++ " (resolved to " ++ absolutePath ++ ")"
      ([], [ParseError.mk ParseErrorType.missing_file msg ctx.currentFilePath])
    | some file =>
      if !file.active then ([], [])
      else
        let parsedPrims := parseUsda file.content
        let newCtx : ParseContext :=
          { ctx with currentFilePath := absolutePath,
                     visitedPaths := ctx.visitedPaths ++ [absolutePath] }
        let res := resolveAllReferences parsedPrims newCtx
        match entry.primPath with
        | some pp =>
          if pp.isEmpty then (res.1.map clonePrim, res.2)
          else
            match findPrimByPath res.1 pp with
            | some target => ([clonePrim target], res.2)
            | none =>
              let msg := "Prim path not found: " ++ pp ++ " in " ++ entry.assetPath
              ([], res.2 ++
                [ParseError.mk ParseErrorType.invalid_prim_path msg ctx.currentFilePath])
        | none => (res.1.map clonePrim, res.2)
termination_by (unvisitedCount ctx.files ctx.visitedPaths, sizeOf entry)
decreasing_by
  apply Prod.Lex.left
  exact unvisitedCount_lt h1 h2

/-- The for-loop over one prim's entry list of one kind. -/
def resolveEntries (ctx : ParseContext) (isPayload : Bool) :
    List UsdReference → List ParsedPrim × List ParseError
  | [] => ([], [])
  | e :: es =>
    let c := resolveEntry ctx isPayload e
    let cs := resolveEntries ctx isPayload es
    (c.1 ++ cs.1, c.2 ++ cs.2)
termination_by es => (unvisitedCount ctx.files ctx.visitedPaths, sizeOf es)

/-- `resolveReferencesForPrim(prim, context)`: process the `references`
entries, then the `payloads` entries, then recurse into the native
`children` with the same context.  The guard `prim.references?.length`
is falsy both for `undefined` and for an empty list; only when it passes is
`resolvedChildren` initialized to `resolvedChildren || []` and extended. -/
def resolveReferencesForPrim (prim : ParsedPrim) (ctx : ParseContext) :
    ParsedPrim × List ParseError :=
  match prim with
  | .mk d c r =>
    let refStep : Option (List ParsedPrim) × List ParseError :=
      match h3 : d.references with
      | some refs =>
        if refs.isEmpty then (r, [])
        else
          let rc := resolveEntries ctx false refs
          (some (r.getD [] ++ rc.1), rc.2)
      | none => (r, [])
    let payStep : Option (List ParsedPrim) × List ParseError :=
      match h4 : d.payloads with
      | some pays =>
        if pays.isEmpty then (refStep.1, [])
        else
          let pc := resolveEntries ctx true pays
          (some (refStep.1.getD [] ++ pc.1), pc.2)
      | none => (refStep.1, [])
    let childStep : Option (List ParsedPrim) × List ParseError :=
      match c with
      | some cs =>
        let cr := resolveAllReferences cs ctx
        (some cr.1, cr.2)
      | none => (none, [])
    (.mk d childStep.1 payStep.1, refStep.2 ++ payStep.2 ++ childStep.2)
termination_by (unvisitedCount ctx.files ctx.visitedPaths, sizeOf prim)
decreasing_by
  · apply Prod.Lex.right
    exact sizeOf_references_lt h3
  · apply Prod.Lex.right
    exact sizeOf_payloads_lt h4
  · apply Prod.Lex.right
    simp only [ParsedPrim.mk.sizeOf_spec, Option.some.sizeOf_spec]
    omega

/-- `resolveAllReferences(prims, context)`: resolve each prim in order,
concatenating the error contributions. -/
def resolveAllReferences (prims : List ParsedPrim) (ctx : ParseContext) :
    List ParsedPrim × List ParseError :=
  match prims with
  | [] => ([], [])
  | p :: ps =>
    let rr := resolveReferencesForPrim p ctx
    let rs := resolveAllReferences ps ctx
    (rr.1 :: rs.1, rr.2 ++ rs.2)
termination_by (unvisitedCount ctx.files ctx.visitedPaths, sizeOf prims)

end

/-- The result of `parseAndResolve`. -/
structure ParseResult where
  prims : List ParsedPrim
  errors : List ParseError

/-- The initial context built by `parseAndResolve`: the visited set is
seeded with the root file's own path. -/
def mkInitialContext (currentFilePath : String) (files : FileMap) : ParseContext :=
  { currentFilePath := currentFilePath, files := files,
    visitedPaths := [currentFilePath] }

/-- The top-level try/catch of `parseAndResolve`, generalized over the parse
step: the only stage of the pipeline that can throw in this model.
`Except.error e` stands for a thrown exception; the catch converts it into
an empty prim list with a single `parse_error` naming the root file.  (In
the source the whole pipeline sits in the `try`; the later stages are pure
tree walks, total here, so a throw can only come from the parse step.) -/
def parseAndResolveWith (parseFn : String → Except String (List ParsedPrim))
    (content : String) (currentFilePath : String) (files : FileMap) : ParseResult :=
  match parseFn content with
  | .ok parsedPrims =>
    let context := mkInitialContext currentFilePath files
    let res := resolveAllReferences parsedPrims context
    { prims := filterActivePrims res.1, errors := res.2 }
  | .error e =>
    let msg := "Failed to parse USDA: " ++ e
    { prims := [], errors := [ParseError.mk ParseErrorType.parse_error msg currentFilePath] }

/-- `parseAndResolve(content, currentFilePath, files)`: parse the root file,
resolve all references with the seeded context, then filter inactive prims
— the filter runs exactly once, here, after all cross-file resolution. -/
def parseAndResolve (content : String) (currentFilePath : String) (files : FileMap) :
    ParseResult :=
  parseAndResolveWith (fun c => Except.ok (parseUsda c)) content currentFilePath files

/-! ### Interpolation (`interpolateValue`) -/

/-- `Array.from(timeSamples.keys()).sort((a, b) => a - b)`: the keys in
ascending order.  A JS stable sort with this comparator produces the unique
monotone permutation; `insertionSort` is such a sort. -/
def sortedTimes (timeSamples : TimeSamples ℚ) : List ℚ :=
  List.insertionSort (fun a b => a ≤ b) (timeSamples.map Prod.fst)

/-- `timeSamples.get(t)!`: the value stored at a key (`0` for the impossible
missing-key case of the non-null assertion). -/
def tsGetD (timeSamples : TimeSamples ℚ) (t : ℚ) : ℚ :=
  ((timeSamples.find? (fun kv => kv.1 == t)).map Prod.snd).getD 0

/-- The scan loop of `interpolateValue` over consecutive sorted times: on
the first window with `times[i] ≤ frame ≤ times[i+1]` return the linear
blend `v0 + (v1 - v0) * (frame - t0) / (t1 - t0)`; `none` when the loop
falls through. -/
def interpScan (timeSamples : TimeSamples ℚ) (frame : ℚ) : List ℚ → Option ℚ
  | t0 :: t1 :: rest =>
    if t0 ≤ frame ∧ frame ≤ t1 then
      let v0 := tsGetD timeSamples t0
      let v1 := tsGetD timeSamples t1
      some (v0 + (v1 - v0) * ((frame - t0) / (t1 - t0)))
    else interpScan timeSamples frame (t1 :: rest)
  | _ => none

/-- `interpolateValue(timeSamples, frame)`: `0` on an empty map, clamp to
the first/last sample outside the sampled range, otherwise the scan loop;
the source's unreachable post-loop fallback returns the first sample. -/
def interpolateValue (timeSamples : TimeSamples ℚ) (frame : ℚ) : ℚ :=
  let times := sortedTimes timeSamples
  match h : times with
  | [] => 0
  | t0 :: rest =>
    let tLast := List.getLast (t0 :: rest) (by simp)
    if frame ≤ t0 then tsGetD timeSamples t0
    else if tLast ≤ frame then tsGetD timeSamples tLast
    else
      match interpScan timeSamples frame (t0 :: rest) with
      | some v => v
      | none => tsGetD timeSamples t0

/-! ### Definitions used to state the claims -/

mutual

/-- All prims reachable from a prim through `children` and
`resolvedChildren`, the prim itself included. -/
def subPrims : ParsedPrim → List ParsedPrim
  | .mk d c r => .mk d c r :: (subPrimsOpt c ++ subPrimsOpt r)

/-- `subPrims` over an optional child list. -/
def subPrimsOpt : Option (List ParsedPrim) → List ParsedPrim
  | none => []
  | some l => subPrimsList l

/-- All prims reachable from a forest. -/
def subPrimsList : List ParsedPrim → List ParsedPrim
  | [] => []
  | p :: ps => subPrims p ++ subPrimsList ps

end

/-- An entry list that the resolver's `prim.references?.length` /
`prim.payloads?.length` guard skips: absent or empty. -/
def noEntries : Option (List UsdReference) → Bool
  | none => true
  | some [] => true
  | some (_ :: _) => false

mutual

/-- A prim carrying no reference or payload entries anywhere in its
`children` tree (`resolvedChildren` is irrelevant: the resolver never
recurses into it). -/
def refFreePrim : ParsedPrim → Bool
  | .mk d c _ => noEntries d.references && noEntries d.payloads && refFreeOpt c

/-- `refFreePrim` over an optional child list. -/
def refFreeOpt : Option (List ParsedPrim) → Bool
  | none => true
  | some l => refFreeList l

/-- `refFreePrim` over a forest. -/
def refFreeList : List ParsedPrim → Bool
  | [] => true
  | p :: ps => refFreePrim p && refFreeList ps

end

/-- A single-reference chain through the file map: starting at file `cur`
whose one prim references `asset`, each element of `rem` is the (path,
content) of the next file — present, active, parsing to exactly one prim
with exactly one reference and no payloads or nested children — and after
`rem` is exhausted the last reference resolves to `target`, which is
already on the visited path. -/
def ChainFrom (files : FileMap) :
    List (String × String) → List String → String → String → String → Prop
  | [], visited, cur, asset, target =>
    resolveRelativePath cur asset = target ∧ target ∈ visited
  | (p, c) :: rest, visited, cur, asset, target =>
    resolveRelativePath cur asset = p ∧ p ∉ visited ∧
    lookupFile files p = some ⟨c, true⟩ ∧
    ∃ (prim : ParsedPrim) (a' : String),
      parseUsda c = [prim] ∧ prim.references = some [⟨a', none⟩] ∧
      prim.payloads = none ∧ prim.children = some [] ∧
      ChainFrom files rest (visited ++ [p]) p a' target

/-- The path of the file in which a chain's cycle check finally fires: the
last chain element's path, or the starting file when the chain is empty. -/
def chainEndPath (cur : String) (rem : List (String × String)) : String :=
  (rem.map Prod.fst).getLastD cur

/-! ### Concrete scenarios -/

/-- `/main.usda` of the spec's concrete scenario: a Sphere prim `S` with
`double radius = 1.0` and a typeless prim `Ref` referencing `./cube.usda`. -/
def mainUsdaContent : String :=
  "def Sphere \"S\"\n\x7b\n    double radius = 1.0\n\x7d\n\ndef \"Ref\" (references = @./cube.usda@)\n\x7b\n\x7d\n"

/-- `/cube.usda` of the spec's concrete scenario: a Cube prim `C` with
`double size = 2.0`. -/
def cubeUsdaContent : String :=
  "def Cube \"C\"\n\x7b\n    double size = 2.0\n\x7d\n"

/-- The scenario's file map, both files active. -/
def scenarioFiles : FileMap :=
  [("/main.usda", ⟨mainUsdaContent, true⟩), ("/cube.usda", ⟨cubeUsdaContent, true⟩)]

/-- The parsed form of `S`. -/
def primS : ParsedPrim :=
  .mk { type := "Sphere", name := "S", radius := some 1 } (some []) none

/-- The parsed form of `C`. -/
def primC : ParsedPrim :=
  .mk { type := "Cube", name := "C", size := some 2 } (some []) none

/-- The parsed form of `Ref`. -/
def primRef : ParsedPrim :=
  .mk { type := "Xform", name := "Ref",
        references := some [⟨"./cube.usda", none⟩] } (some []) none

/-- `Ref` after resolution: `C` spliced into `resolvedChildren`. -/
def primRefResolved : ParsedPrim :=
  .mk primRef.data (some []) (some [primC])

/-- A root file whose two sibling prims `P1`, `P2` each reference
`./b.usda` (the counterexample file for C2's "exactly one" count). -/
def cycAContent : String :=
  "def \"P1\" (references = @./b.usda@)\n\x7b\n\x7d\ndef \"P2\" (references = @./b.usda@)\n\x7b\n\x7d\n"

/-- A file whose prim `Q` references `./a.usda`, closing the cycle. -/
def cycBContent : String :=
  "def \"Q\" (references = @./a.usda@)\n\x7b\n\x7d\n"

/-- The cyclic two-file map of the counterexample. -/
def cycFiles : FileMap :=
  [("/a.usda", ⟨cycAContent, true⟩), ("/b.usda", ⟨cycBContent, true⟩)]

/-- A root file with a single prim `P` referencing `./b.usda` (the
single-chain cycle witness). -/
def chainAContent : String :=
  "def \"P\" (references = @./b.usda@)\n\x7b\n\x7d\n"

/-- The single-chain cyclic file map. -/
def chainFiles : FileMap :=
  [("/a.usda", ⟨chainAContent, true⟩), ("/b.usda", ⟨cycBContent, true⟩)]

/-- The parsed form of `P` (also of `P1`/`P2` up to the name). -/
def primP : ParsedPrim :=
  .mk { type := "Xform", name := "P",
        references := some [⟨"./b.usda", none⟩] } (some []) none

/-- The parsed form of `Q`. -/
def primQ : ParsedPrim :=
  .mk { type := "Xform", name := "Q",
        references := some [⟨"./a.usda", none⟩] } (some []) none

/-- A plain reference-free file for the sibling-resolution witness. -/
def plainBContent : String :=
  "def Cube \"B\"\n\x7b\n    double size = 1.0\n\x7d\n"

/-- Sibling scenario: two prims of the root file each reference the same
non-cyclic `./b.usda`. -/
def sibFiles : FileMap :=
  [("/a.usda", ⟨cycAContent, true⟩), ("/b.usda", ⟨plainBContent, true⟩)]

/-- First of two same-named siblings (for the duplicate-shadowing claim):
an `Xform` named `X` with one child `C1`. -/
def primX1 : ParsedPrim :=
  .mk { type := "Xform", name := "X" }
    (some [.mk { type := "Sphere", name := "C1" } (some []) none]) none

/-- Second of two same-named siblings: a `Cube` also named `X`. -/
def primX2 : ParsedPrim :=
  .mk { type := "Cube", name := "X" } (some []) none

/-- A file with an `active = false` root prim and an active sibling. -/
def actUsdaContent : String :=
  "def Sphere \"Gone\" (active = false)\n\x7b\n\x7d\ndef Sphere \"Kept\"\n\x7b\n\x7d\n"

/-- The parsed inactive prim. -/
def primGone : ParsedPrim :=
  .mk { type := "Sphere", name := "Gone", active := some false } (some []) none

/-- The parsed active prim. -/
def primKept : ParsedPrim :=
  .mk { type := "Sphere", name := "Kept" } (some []) none

/-! ### Shared lemmas -/

mutual

/-- Cloning is the identity on this value-type model. -/
theorem clonePrim_id : ∀ p : ParsedPrim, clonePrim p = p
  | .mk d c r => by rw [clonePrim, cloneOpt_id c, cloneOpt_id r]

/-- `cloneOpt` is the identity. -/
theorem cloneOpt_id : ∀ o : Option (List ParsedPrim), cloneOpt o = o
  | none => rfl
  | some l => by rw [cloneOpt, cloneList_id l]

/-- `cloneList` is the identity. -/
theorem cloneList_id : ∀ l : List ParsedPrim, cloneList l = l
  | [] => rfl
  | p :: ps => by rw [cloneList, clonePrim_id p, cloneList_id ps]

end

/-- `List.map clonePrim` is the identity (shape used by `resolveEntry`). -/
theorem map_clonePrim_id (l : List ParsedPrim) : l.map clonePrim = l := by
  induction l with
  | nil => rfl
  | cons p ps ih => rw [List.map_cons, clonePrim_id, ih]

/-- `cloneList` is `List.map clonePrim`, the source's shape. -/
theorem cloneList_eq_map (l : List ParsedPrim) : cloneList l = l.map clonePrim := by
  rw [cloneList_id, map_clonePrim_id]

/-- The fused `filterActivePrims` equals the source's
`.filter(active !== false).map(recurse)` form. -/
theorem filterActivePrims_eq (prims : List ParsedPrim) :
    filterActivePrims prims = (prims.filter keepActive).map filterPrim := by
  induction prims with
  | nil => rfl
  | cons p ps ih =>
    rw [filterActivePrims]
    cases hk : keepActive p with
    | true => rw [if_pos rfl, List.filter_cons_of_pos hk, List.map_cons, ih]
    | false =>
      rw [if_neg (by simp), List.filter_cons_of_neg (by simp [hk]), ih]

/-- The entry loop decomposes entrywise: each entry's contribution is
independent of its siblings (same context, no shared state but the error
order), so the loop is the concatenation of per-entry results. -/
theorem resolveEntries_flatMap (ctx : ParseContext) (isPayload : Bool)
    (entries : List UsdReference) :
    resolveEntries ctx isPayload entries =
      (entries.flatMap (fun e => (resolveEntry ctx isPayload e).1),
       entries.flatMap (fun e => (resolveEntry ctx isPayload e).2)) := by
  induction entries with
  | nil => rw [resolveEntries]; simp
  | cons e es ih => rw [resolveEntries, ih]; simp

mutual

/-- A reference-free prim resolves to itself with no errors. -/
theorem resolvePrim_refFree : ∀ (p : ParsedPrim) (ctx : ParseContext),
    refFreePrim p = true → resolveReferencesForPrim p ctx = (p, [])
  | .mk d c r, ctx, h => by
    rw [refFreePrim] at h
    simp only [Bool.and_eq_true] at h
    obtain ⟨⟨href, hpay⟩, hch⟩ := h
    have hrefs : d.references = none ∨ d.references = some [] := by
      cases hdr : d.references with
      | none => exact Or.inl rfl
      | some refs =>
        cases refs with
        | nil => exact Or.inr rfl
        | cons e es => rw [hdr] at href; simp [noEntries] at href
    have hpays : d.payloads = none ∨ d.payloads = some [] := by
      cases hdp : d.payloads with
      | none => exact Or.inl rfl
      | some pays =>
        cases pays with
        | nil => exact Or.inr rfl
        | cons e es => rw [hdp] at hpay; simp [noEntries] at hpay
    cases c with
    | none =>
      rcases hrefs with hdr | hdr <;> rcases hpays with hdp | hdp <;>
        (simp only [resolveReferencesForPrim]; repeat' split) <;> simp_all
    | some cs =>
      have hcs := resolveList_refFree cs ctx (by simpa [refFreeOpt] using hch)
      rcases hrefs with hdr | hdr <;> rcases hpays with hdp | hdp <;>
        (simp only [resolveReferencesForPrim]; repeat' split) <;> simp_all

/-- A reference-free forest resolves to itself with no errors. -/
theorem resolveList_refFree : ∀ (l : List ParsedPrim) (ctx : ParseContext),
    refFreeList l = true → resolveAllReferences l ctx = (l, [])
  | [], ctx, _ => by rw [resolveAllReferences]
  | p :: ps, ctx, h => by
    rw [refFreeList] at h
    simp only [Bool.and_eq_true] at h
    rw [resolveAllReferences, resolvePrim_refFree p ctx h.1, resolveList_refFree ps ctx h.2]
    simp

end

/-- The first prim whose name matches is the one `find?` returns, whatever
follows it. -/
theorem find?_name_first {pre : List ParsedPrim} {p : ParsedPrim}
    {post : List ParsedPrim} {seg : String}
    (hpre : ∀ q ∈ pre, q.name ≠ seg) (hp : p.name = seg) :
    (pre ++ p :: post).find? (fun q => q.name == seg) = some p := by
  induction pre with
  | nil => simp [List.find?, hp]
  | cons q qs ih =>
    have hq : (q.name == seg) = false := by
      simp [hpre q (List.mem_cons_self q qs)]
    rw [List.cons_append, List.find?_cons_of_neg _ (by simp [hq])]
    exact ih (fun x hx => hpre x (List.mem_cons_of_mem q hx))

/-! ### Claim theorems -/

/-- C6: `parseAndResolve` never raises: the pipeline sits in a single
top-level try/catch, and a thrown parse step is converted into an empty
prim list with exactly one `parse_error` carrying the root file's path; the
caller always receives a `{prims, errors}` value (`parseAndResolveWith` is
total, and `parseAndResolve` instantiates it with the total parser). -/
theorem C6_top_level_catch :
    (∀ (parseFn : String → Except String (List ParsedPrim))
        (content currentFilePath : String) (files : FileMap) (e : String),
      parseFn content = Except.error e →
      parseAndResolveWith parseFn content currentFilePath files =
        ⟨[], [ParseError.mk ParseErrorType.parse_error
          ("Failed to parse USDA: " ++ e) currentFilePath]⟩)
    ∧ (∀ (content currentFilePath : String) (files : FileMap),
        parseAndResolve content currentFilePath files =
          parseAndResolveWith (fun c => Except.ok (parseUsda c))
            content currentFilePath files) := by
  constructor
  · intro parseFn content currentFilePath files e h
    simp [parseAndResolveWith, h]
  · intro content currentFilePath files
    rfl

/-- Witness for C6 at a concrete throwing parse step. -/
theorem C6_witness :
    parseAndResolveWith (fun _ => Except.error "boom") "" "/root.usda" [] =
      ⟨[], [ParseError.mk ParseErrorType.parse_error
        "Failed to parse USDA: boom" "/root.usda"]⟩ :=
  C6_top_level_catch.1 (fun _ => Except.error "boom") "" "/root.usda" [] "boom" rfl

/-- Any string starting with a slash still starts with a slash after the
`"/" ++ …` construction. -/
theorem startsWithLit_slash_append (s : String) :
    startsWithLit "/" ("/" ++ s) = true := by
  unfold startsWithLit
  rw [String.data_append]
  show List.isPrefixOf ('/' :: []) ('/' :: s.data) = true
  simp [List.isPrefixOf]

/-- C7: `resolveRelativePath` returns an absolute asset path unchanged;
otherwise it normalizes the base directory joined with the asset path,
where the normalization drops `.` segments, lets each `..` segment remove
the preceding collected segment (clamping at the root: dropping from an
empty list is a no-op), and the result always begins with `/`. -/
theorem C7_resolveRelativePath_spec :
    (∀ basePath relativePath, startsWithLit "/" relativePath = true →
      resolveRelativePath basePath relativePath = relativePath)
    ∧ (∀ basePath relativePath, startsWithLit "/" relativePath = false →
      resolveRelativePath basePath relativePath =
        "/" ++ String.intercalate "/"
          (normalizeSegments (splitSegments (jsBaseDir basePath ++ relativePath))))
    ∧ (∀ basePath relativePath,
        startsWithLit "/" (resolveRelativePath basePath relativePath) = true)
    ∧ (∀ segs s, s ≠ "." → s ≠ ".." →
        normalizeSegments (segs ++ [s]) = normalizeSegments segs ++ [s])
    ∧ (∀ segs, normalizeSegments (segs ++ ["."]) = normalizeSegments segs)
    ∧ (∀ segs, normalizeSegments (segs ++ [".."]) = (normalizeSegments segs).dropLast) := by
  refine ⟨?abs, ?rel, ?slash, ?push, ?dot, ?pop⟩
  case abs =>
    intro basePath relativePath h
    rw [resolveRelativePath, if_pos h]
  case rel =>
    intro basePath relativePath h
    simp [resolveRelativePath, h]
  case slash =>
    intro basePath relativePath
    by_cases h : startsWithLit "/" relativePath = true
    · rw [resolveRelativePath, if_pos h]; exact h
    · rw [resolveRelativePath, if_neg h]
      exact startsWithLit_slash_append _
  case push =>
    intro segs s h1 h2
    simp [normalizeSegments, List.foldl_append, h1, h2]
  case dot =>
    intro segs
    simp [normalizeSegments, List.foldl_append]
  case pop =>
    intro segs
    simp [normalizeSegments, List.foldl_append]

/-- Witness for C7 at concrete paths. -/
theorem C7_witness :
    (startsWithLit "/" "/abs.usda" = true ∧
      resolveRelativePath "/a/b.usda" "/abs.usda" = "/abs.usda") ∧
    (startsWithLit "/" "../x/./y.usda" = false ∧
      resolveRelativePath "/models/a.usda" "../x/./y.usda" =
        "/" ++ String.intercalate "/"
          (normalizeSegments (splitSegments (jsBaseDir "/models/a.usda" ++ "../x/./y.usda")))) ∧
    normalizeSegments (["a", "b"] ++ [".."]) = (normalizeSegments ["a", "b"]).dropLast :=
  ⟨⟨by decide, C7_resolveRelativePath_spec.1 "/a/b.usda" "/abs.usda" (by decide)⟩,
   ⟨by decide, C7_resolveRelativePath_spec.2.1 "/models/a.usda" "../x/./y.usda" (by decide)⟩,
   C7_resolveRelativePath_spec.2.2.2.2.2 ["a", "b"]⟩

/-- C8: a reference or payload entry whose target file exists but is
inactive is skipped entirely and silently: no error of any type, no
`resolvedChildren` contribution, and — since the equation holds for every
`file.content` — the file is never parsed or recursed into. -/
theorem C8_inactive_file_skip :
    ∀ (ctx : ParseContext) (isPayload : Bool) (entry : UsdReference) (file : VirtualFile),
      resolveRelativePath ctx.currentFilePath entry.assetPath ∉ ctx.visitedPaths →
      lookupFile ctx.files (resolveRelativePath ctx.currentFilePath entry.assetPath) = some file →
      file.active = false →
      resolveEntry ctx isPayload entry = ([], []) := by
  intro ctx b entry file h1 h2 h3
  rw [resolveEntry.eq_def]
  simp only []
  rw [dif_neg h1]
  split
  · rename_i heq
    rw [h2] at heq
    cases heq
  · rename_i file' heq
    rw [h2] at heq
    injection heq with heq'
    subst heq'
    simp [h3]

/-- Witness for C8 at a concrete inactive file. -/
theorem C8_witness :
    resolveEntry ⟨"/a.usda", [("/b.usda", ⟨"def Cube \"C\"", false⟩)], ["/a.usda"]⟩
        false ⟨"./b.usda", none⟩ = ([], []) :=
  C8_inactive_file_skip _ false ⟨"./b.usda", none⟩ ⟨"def Cube \"C\"", false⟩
    (by decide) (by decide) rfl

/-- C5: a reference or payload entry whose resolved absolute path is not in
the file map contributes exactly one `missing_file` error and nothing to
`resolvedChildren`; and the entry loop is the concatenation of independent
per-entry contributions, so the other entries of the same prim (and its
siblings, which go through the same per-entry function) still resolve
normally — a missing entry aborts nothing. -/
theorem C5_missing_file_entry :
    (∀ (ctx : ParseContext) (isPayload : Bool) (entry : UsdReference),
      resolveRelativePath ctx.currentFilePath entry.assetPath ∉ ctx.visitedPaths →
      lookupFile ctx.files (resolveRelativePath ctx.currentFilePath entry.assetPath) = none →
      (resolveEntry ctx isPayload entry).1 = [] ∧
      (resolveEntry ctx isPayload entry).2.map ParseError.type = [ParseErrorType.missing_file])
    ∧ (∀ (ctx : ParseContext) (isPayload : Bool) (entries : List UsdReference),
        resolveEntries ctx isPayload entries =
          (entries.flatMap (fun e => (resolveEntry ctx isPayload e).1),
           entries.flatMap (fun e => (resolveEntry ctx isPayload e).2))) := by
  constructor
  · intro ctx b entry h1 h2
    rw [resolveEntry.eq_def]
    simp only []
    rw [dif_neg h1]
    split
    · simp
    · rename_i file heq
      rw [h2] at heq
      cases heq
  · exact resolveEntries_flatMap

/-- Witness for C5 at a concrete missing file, with a sibling entry list. -/
theorem C5_witness :
    ((resolveEntry ⟨"/a.usda", [], ["/a.usda"]⟩ false ⟨"./missing.usda", none⟩).1 = [] ∧
      (resolveEntry ⟨"/a.usda", [], ["/a.usda"]⟩ false ⟨"./missing.usda", none⟩).2.map
        ParseError.type = [ParseErrorType.missing_file]) ∧
    resolveEntries ⟨"/a.usda", [], ["/a.usda"]⟩ false
        [⟨"./missing.usda", none⟩, ⟨"./other.usda", none⟩] =
      ([⟨"./missing.usda", none⟩, ⟨"./other.usda", none⟩].flatMap
        (fun e => (resolveEntry ⟨"/a.usda", [], ["/a.usda"]⟩ false e).1),
       [⟨"./missing.usda", none⟩, ⟨"./other.usda", none⟩].flatMap
        (fun e => (resolveEntry ⟨"/a.usda", [], ["/a.usda"]⟩ false e).2)) :=
  ⟨C5_missing_file_entry.1 ⟨"/a.usda", [], ["/a.usda"]⟩ false ⟨"./missing.usda", none⟩
      (by decide) (by decide),
   C5_missing_file_entry.2 ⟨"/a.usda", [], ["/a.usda"]⟩ false
      [⟨"./missing.usda", none⟩, ⟨"./other.usda", none⟩]⟩

/-- C9: `findPrimByPath` walks the slash-separated segments, taking at each
level the first prim in sequence order whose name equals the segment
(`find?`); hence with duplicate sibling names every path through that name
designates the first such sibling, and the result is independent of
everything after the first match — the later same-named siblings are
unreachable by path. -/
theorem C9_first_match_lookup :
    (∀ (prims : List ParsedPrim) (path : String),
      findPrimByPath prims path =
        findPrimLoop prims ((jsSplitOnChar '/' path).filter (fun s => !(s == ""))))
    ∧ (∀ (pre : List ParsedPrim) (p : ParsedPrim) (post : List ParsedPrim)
        (seg : String) (rest : List String),
        (∀ q ∈ pre, q.name ≠ seg) → p.name = seg →
        findPrimLoop (pre ++ p :: post) (seg :: rest) =
          (if rest.isEmpty then some p else findPrimLoop (p.children.getD []) rest))
    ∧ (∀ (pre : List ParsedPrim) (p : ParsedPrim) (post post' : List ParsedPrim)
        (seg : String) (rest : List String),
        (∀ q ∈ pre, q.name ≠ seg) → p.name = seg →
        findPrimLoop (pre ++ p :: post) (seg :: rest) =
          findPrimLoop (pre ++ p :: post') (seg :: rest)) := by
  have hfirst : ∀ (pre : List ParsedPrim) (p : ParsedPrim) (post : List ParsedPrim)
      (seg : String) (rest : List String),
      (∀ q ∈ pre, q.name ≠ seg) → p.name = seg →
      findPrimLoop (pre ++ p :: post) (seg :: rest) =
        (if rest.isEmpty then some p else findPrimLoop (p.children.getD []) rest) := by
    intro pre p post seg rest hpre hp
    rw [findPrimLoop, find?_name_first hpre hp]
  exact ⟨fun prims path => rfl, hfirst,
    fun pre p post post' seg rest hpre hp => by
      rw [hfirst pre p post seg rest hpre hp, hfirst pre p post' seg rest hpre hp]⟩

/-- Witness for C9: with two siblings both named `X`, lookup returns the
first and ignores the second entirely. -/
theorem C9_witness :
    findPrimLoop ([] ++ primX1 :: [primX2]) ("X" :: []) =
      (if ([] : List String).isEmpty then some primX1
        else findPrimLoop (primX1.children.getD []) []) ∧
    findPrimLoop ([] ++ primX1 :: [primX2]) ("X" :: []) =
      findPrimLoop ([] ++ primX1 :: []) ("X" :: []) :=
  ⟨C9_first_match_lookup.2.1 [] primX1 [primX2] "X" [] (by simp) rfl,
   C9_first_match_lookup.2.2 [] primX1 [primX2] [] "X" [] (by simp) rfl⟩

/-- C10: the top-level entry point seeds the visited set with the root
file's own path, so an entry resolving to the current file itself is
immediately a `circular_reference` error — for every file map and every
content, so the file is never parsed or recursed into. -/
theorem C10_seeded_self_reference :
    (∀ (currentFilePath : String) (files : FileMap),
      (mkInitialContext currentFilePath files).visitedPaths = [currentFilePath])
    ∧ (∀ (files : FileMap) (currentFilePath : String) (isPayload : Bool)
        (entry : UsdReference),
        resolveRelativePath currentFilePath entry.assetPath = currentFilePath →
        resolveEntry (mkInitialContext currentFilePath files) isPayload entry =
          ([], [ParseError.mk ParseErrorType.circular_reference
            ((if isPayload then "Circular payload detected: "
              else "Circular reference detected: ")
              ++ currentFilePath ++ " -> " ++ currentFilePath) currentFilePath])) := by
  constructor
  · intro currentFilePath files
    rfl
  · intro files currentFilePath b entry h
    rw [resolveEntry.eq_def]
    simp only [mkInitialContext, h]
    rw [dif_pos (by simp)]

/-- Witness for C10 at a concrete direct self-reference. -/
theorem C10_witness :
    resolveRelativePath "/self.usda" "./self.usda" = "/self.usda" ∧
    resolveEntry (mkInitialContext "/self.usda" []) false ⟨"./self.usda", none⟩ =
      ([], [ParseError.mk ParseErrorType.circular_reference
        "Circular reference detected: /self.usda -> /self.usda" "/self.usda"]) :=
  ⟨by decide, by
    have h := C10_seeded_self_reference.2 [] "/self.usda" false ⟨"./self.usda", none⟩ (by decide)
    simpa using h⟩

/-- The success path of `resolveEntry` (target fresh, present and active, no
prim path): parse the target, recurse with the extended visited set, splice
the cloned roots. -/
theorem resolveEntry_success {ctx : ParseContext} {entry : UsdReference}
    {file : VirtualFile} (isPayload : Bool)
    (h1 : resolveRelativePath ctx.currentFilePath entry.assetPath ∉ ctx.visitedPaths)
    (h2 : lookupFile ctx.files (resolveRelativePath ctx.currentFilePath entry.assetPath) = some file)
    (h3 : file.active = true)
    (hpp : entry.primPath = none) :
    resolveEntry ctx isPayload entry =
      ((resolveAllReferences (parseUsda file.content)
          { ctx with
            currentFilePath := resolveRelativePath ctx.currentFilePath entry.assetPath,
            visitedPaths := ctx.visitedPaths ++
              [resolveRelativePath ctx.currentFilePath entry.assetPath] }).1.map clonePrim,
       (resolveAllReferences (parseUsda file.content)
          { ctx with
            currentFilePath := resolveRelativePath ctx.currentFilePath entry.assetPath,
            visitedPaths := ctx.visitedPaths ++
              [resolveRelativePath ctx.currentFilePath entry.assetPath] }).2) := by
  rw [resolveEntry.eq_def]
  simp only []
  rw [dif_neg h1]
  split
  · rename_i heq
    rw [h2] at heq
    cases heq
  · rename_i file' heq
    rw [h2] at heq
    injection heq with heq'
    subst heq'
    rw [hpp]
    simp [h3]

mutual

/-- No prim reachable inside a filtered kept prim is inactive. -/
theorem noInactive_subPrims : ∀ (q : ParsedPrim), keepActive q = true →
    ∀ p, p ∈ subPrims (filterPrim q) → p.active ≠ some false
  | .mk d c r, hq, p, hp => by
    rw [filterPrim.eq_def, subPrims] at hp
    rcases List.mem_cons.mp hp with rfl | hp2
    · simpa [keepActive, ParsedPrim.active, ParsedPrim.data] using hq
    · rcases List.mem_append.mp hp2 with h | h
      · exact noInactive_filterOpt c p h
      · exact noInactive_filterOpt r p h

/-- No prim reachable inside a filtered optional child list is inactive. -/
theorem noInactive_filterOpt : ∀ (o : Option (List ParsedPrim)) (p : ParsedPrim),
    p ∈ subPrimsOpt (match o with
      | none => none
      | some l => some (filterActivePrims l)) → p.active ≠ some false
  | none, p, hp => by simp [subPrimsOpt] at hp
  | some l, p, hp => by
    simp only [subPrimsOpt] at hp
    exact noInactive_filterList l p hp

/-- No prim reachable in a filtered forest is inactive. -/
theorem noInactive_filterList : ∀ (l : List ParsedPrim) (p : ParsedPrim),
    p ∈ subPrimsList (filterActivePrims l) → p.active ≠ some false
  | [], p, hp => by simp [filterActivePrims, subPrimsList] at hp
  | q :: qs, p, hp => by
    rw [filterActivePrims] at hp
    by_cases hk : keepActive q = true
    · rw [if_pos hk] at hp
      rw [subPrimsList] at hp
      rcases List.mem_append.mp hp with h | h
      · exact noInactive_subPrims q hk p h
      · exact noInactive_filterList qs p h
    · rw [if_neg hk] at hp
      exact noInactive_filterList qs p hp

end

/-- C4: no prim reachable in `parseAndResolve`'s returned tree (through
`children` or `resolvedChildren`, at any depth) is explicitly inactive;
the filter keeps exactly the prims with `active` absent or `true`, in
order (`filter`-then-`map` shape); and it is applied exactly once, at the
top level, after all cross-file resolution. -/
theorem C4_active_filter :
    (∀ (content currentFilePath : String) (files : FileMap) (p : ParsedPrim),
      p ∈ subPrimsList (parseAndResolve content currentFilePath files).prims →
      p.active ≠ some false)
    ∧ (∀ prims : List ParsedPrim,
        filterActivePrims prims = (prims.filter keepActive).map filterPrim)
    ∧ (∀ (content currentFilePath : String) (files : FileMap),
        (parseAndResolve content currentFilePath files).prims =
          filterActivePrims
            (resolveAllReferences (parseUsda content)
              (mkInitialContext currentFilePath files)).1) := by
  refine ⟨?noInactive, filterActivePrims_eq, ?once⟩
  case noInactive =>
    intro content currentFilePath files p hp
    exact noInactive_filterList _ p hp
  case once =>
    intro content currentFilePath files
    rfl

/-- Witness for C4 at a concrete file with an inactive and an active prim. -/
theorem C4_witness : primKept.active ≠ some false :=
  C4_active_filter.1 actUsdaContent "/x.usda" [] primKept (by
    have h1 : parseUsda actUsdaContent = [primGone, primKept] := by rfl
    have h2 : resolveAllReferences [primGone, primKept] (mkInitialContext "/x.usda" []) =
        ([primGone, primKept], []) := resolveList_refFree _ _ (by decide)
    have h3 : subPrimsList (filterActivePrims [primGone, primKept]) = [primKept] := by rfl
    simp [parseAndResolve, parseAndResolveWith, h1, h2, h3])

/-- C1: the spec's concrete scenario — resolving `/main.usda` against the
two-file map yields exactly the root prims `S` (radius 1) and `Ref` with
`resolvedChildren = [C (size 2)]`, and an empty error list. -/
theorem C1_concrete_scenario :
    parseAndResolve mainUsdaContent "/main.usda" scenarioFiles =
      ⟨[primS, primRefResolved], []⟩ := by
  have hm : parseUsda mainUsdaContent = [primS, primRef] := by rfl
  have hc : parseUsda cubeUsdaContent = [primC] := by rfl
  have hS : resolveReferencesForPrim primS (mkInitialContext "/main.usda" scenarioFiles) =
      (primS, []) :=
    resolvePrim_refFree _ _ (by decide)
  have hcube : resolveAllReferences [primC]
      ⟨"/cube.usda", scenarioFiles, ["/main.usda", "/cube.usda"]⟩ = ([primC], []) :=
    resolveList_refFree _ _ (by decide)
  have hentry : resolveEntry (mkInitialContext "/main.usda" scenarioFiles) false
      ⟨"./cube.usda", none⟩ = ([primC], []) := by
    rw [resolveEntry_success false (by decide)
      (show lookupFile scenarioFiles (resolveRelativePath "/main.usda" "./cube.usda") =
        some ⟨cubeUsdaContent, true⟩ by rfl) rfl rfl]
    have hr : resolveRelativePath "/main.usda" "./cube.usda" = "/cube.usda" := by rfl
    simp [hr, hc, mkInitialContext, hcube, map_clonePrim_id, clonePrim_id]
  have hRef : resolveReferencesForPrim primRef (mkInitialContext "/main.usda" scenarioFiles) =
      (primRefResolved, []) := by
    simp [primRef, resolveReferencesForPrim, resolveEntries, resolveAllReferences,
      hentry, primRefResolved, ParsedPrim.data]
  have hfilter : filterActivePrims [primS, primRefResolved] = [primS, primRefResolved] := by rfl
  simp [parseAndResolve, parseAndResolveWith, hm, resolveAllReferences, hS, hRef, hfilter]
